import Mathlib

/-!
Shallow embedding of the AutoUAM core (WikiTeq/AutoUAM) in Lean 4.

The embedding follows `src/autouam/core/state.py` and
`src/autouam/core/monitor.py`.  Python floats and POSIX instants are
modelled as rationals (`Rat`); Python `Optional[float]` becomes
`Option Rat`; calls to `time.time()` become an explicit `now : Rat`
argument; the filesystem visible to `StateManager` becomes an explicit
record threaded through the operations.
-/

set_option allowUnsafeReducibility true
attribute [local semireducible] Rat.add Rat.sub Rat.mul Rat.div Rat.inv

namespace AutoUAM

/-- The `UAMState` dataclass from `state.py` (lines 13-32): the persisted
control state with its seven fields. -/
structure UAMState where
  is_enabled : Bool
  last_check : Rat
  load_average : Rat
  threshold_used : Rat
  reason : String
  enabled_at : Option Rat
  disabled_at : Option Rat
deriving Repr, DecidableEq

/-- Embeds `StateManager.get_initial_state` (`state.py` lines 66-76): disabled,
no timestamps, `last_check = time.time()`. -/
def get_initial_state (now : Rat) : UAMState :=
  { is_enabled := false
    enabled_at := none
    disabled_at := none
    last_check := now
    load_average := 0
    threshold_used := 0
    reason := "Initial state" }

/-- Pure core of `StateManager.update_state` (`state.py` lines 179-219):
updates the scalar fields, then sets `enabled_at`/`disabled_at` on the
false→true / true→false transitions.  `now` is the single `time.time()`
call of the method; persistence is handled separately. -/
def update_state (s : UAMState) (is_enabled : Bool) (now load_average threshold_used : Rat)
    (reason : String) : UAMState :=
  let was_enabled := s.is_enabled
  let s' : UAMState :=
    { s with
      is_enabled := is_enabled
      last_check := now
      load_average := load_average
      threshold_used := threshold_used
      reason := reason }
  if is_enabled && !was_enabled then
    { s' with enabled_at := some now, disabled_at := none }
  else if !is_enabled && was_enabled then
    { s' with disabled_at := some now }
  else
    s'

/-- Embeds `StateManager.get_uam_duration` (`state.py` lines 221-228): `none`
unless the state is enabled with a recorded `enabled_at`, else
`time.time() - enabled_at`. -/
def get_uam_duration (now : Rat) (s : UAMState) : Option Rat :=
  if !s.is_enabled then none
  else
    match s.enabled_at with
    | none => none
    | some t => some (now - t)

/-- Embeds `StateManager.can_disable_uam` (`state.py` lines 230-246): `true`
when no duration is available, else `duration >= minimum_duration`
(`minimum_duration : int` in the source). -/
def can_disable_uam (now : Rat) (s : UAMState) (minimum_duration : Int) : Bool :=
  match get_uam_duration now s with
  | none => true
  | some duration => duration ≥ (minimum_duration : Rat)

/-- One `update_state` call's inputs: the flag and the scalar data
(`is_enabled`, `now`, `load_average`, `threshold_used`, `reason`). -/
structure UpdateCall where
  is_enabled : Bool
  now : Rat
  load_average : Rat
  threshold_used : Rat
  reason : String
deriving Repr

/-- Apply a sequence of `update_state` calls to a state. -/
def run_updates (s : UAMState) (calls : List UpdateCall) : UAMState :=
  calls.foldl (fun st c => update_state st c.is_enabled c.now c.load_average c.threshold_used c.reason) s

/-- Reference trace bookkeeping for C2: folding the same call sequence,
track `(is_enabled, an enable transition has occurred, the most recent
transition was enable→disable)`. -/
def trace_flags (init : Bool × Bool × Bool) (calls : List UpdateCall) : Bool × Bool × Bool :=
  calls.foldl
    (fun acc c =>
      let cur := acc.1
      if c.is_enabled && !cur then (true, true, false)
      else if !c.is_enabled && cur then (false, acc.2.1, true)
      else acc)
    init

/-! ### Monitor embedding (`src/autouam/core/monitor.py`) -/

/-- The `LoadAverage` dataclass (`monitor.py` lines 13-28). -/
structure LoadAverage where
  one_minute : Rat
  five_minute : Rat
  fifteen_minute : Rat
  running_processes : Nat
  total_processes : Nat
  last_pid : Nat
  timestamp : Rat
deriving Repr, DecidableEq

/-- The `average` property: the primary (5-minute) load average. -/
def LoadAverage.average (la : LoadAverage) : Rat := la.five_minute

/-- The `LoadBaseline` class state (`monitor.py` lines 31-46): the bounded sample window
(`deque(maxlen=max_samples)`, default 1440) plus the sticky baseline
value and its last update time. -/
structure LoadBaseline where
  max_samples : Nat
  samples : List (Rat × Rat)
  last_update : Rat
  baseline : Option Rat
deriving Repr, DecidableEq

/-- Embeds `LoadBaseline.__init__` (`monitor.py` lines 34-39). -/
def LoadBaseline.init (max_samples : Nat := 1440) : LoadBaseline :=
  { max_samples := max_samples, samples := [], last_update := 0, baseline := none }

/-- Embeds `LoadBaseline.add_sample` (`monitor.py` lines 41-46):
`deque.append` with `maxlen`: append on the right and, when the deque is
full, evict the leftmost entry.  The single `drop` expression covers
both cases (`drop 0` when not yet full). -/
def add_sample (b : LoadBaseline) (normalized_load timestamp : Rat) : LoadBaseline :=
  { b with
    samples :=
      (b.samples ++ [(normalized_load, timestamp)]).drop (b.samples.length + 1 - b.max_samples) }

/-- Python `sorted` on floats: the unique ascending reordering (for a
list of plain values under a total order any correct sort returns the
same list, so the choice of algorithm is immaterial). -/
def pySorted (data : List Rat) : List Rat :=
  List.insertionSort (fun a b => a ≤ b) data

/-- Embeds `statistics.mean`: sum divided by count (only applied to lists with
at least two elements in this development, mirroring the source's
reachable calls). -/
def pyMean (data : List Rat) : Rat :=
  data.sum / (data.length : Rat)

/-- Embeds `statistics.quantiles(data, n=n)` with the default `exclusive`
method (CPython `statistics.py`): `none` models the `StatisticsError`
raises (`n < 1`, or fewer than two data points); otherwise the `n - 1`
cut points, each interpolated between adjacent order statistics with
clamped index `j` and exact integer `delta`. -/
def pyQuantilesExclusive (data : List Rat) (n : Nat) : Option (List Rat) :=
  if n < 1 then none
  else
    let sorted := pySorted data
    let ld := data.length
    if ld < 2 then none
    else
      let m := ld + 1
      some ((List.range (n - 1)).map (fun i0 =>
        let i := i0 + 1
        let j0 := i * m / n
        let j := if j0 < 1 then 1 else if j0 > ld - 1 then ld - 1 else j0
        let delta : Int := (i * m : Int) - (j * n : Int)
        (sorted.getD (j - 1) 0 * ((n : Rat) - (delta : Rat)) + sorted.getD j 0 * (delta : Rat))
          / (n : Rat)))

/-- Embeds `LoadBaseline.calculate_baseline` (`monitor.py` lines 48-97) as a
state transformer.  `now` stands for the method's `time.time()` calls.
Returns the computed baseline (or `none` on the early-return paths)
together with the updated `LoadBaseline`.  The `try/except
(ValueError, IndexError)` around the quantile computation and the list
indexing is modelled by the two `Option` fall-throughs to the mean. -/
def calculate_baseline (now : Rat) (hours : Nat) (b : LoadBaseline) :
    Option Rat × LoadBaseline :=
  if b.samples.isEmpty then (none, b)
  else
    let cutoff := now - ((hours * 3600 : Nat) : Rat)
    let recent_samples := (b.samples.filter (fun p => p.2 ≥ cutoff)).map Prod.fst
    if recent_samples.isEmpty then (none, b)
    else if recent_samples.length < 2 then (none, b)
    else
      let n_quantiles := min 20 recent_samples.length
      let quantile_index := min 18 (n_quantiles - 1)
      let baseline :=
        match pyQuantilesExclusive recent_samples n_quantiles with
        | none => pyMean recent_samples
        | some qs =>
          match qs.get? quantile_index with
          | none => pyMean recent_samples
          | some q => q
      (some baseline, { b with baseline := some baseline, last_update := now })

/-- The qualifying loads of `calculate_baseline`: window values whose
timestamp is within the trailing `hours` window. -/
def recent_loads (now : Rat) (hours : Nat) (b : LoadBaseline) : List Rat :=
  (b.samples.filter (fun p => p.2 ≥ now - ((hours * 3600 : Nat) : Rat))).map Prod.fst

/-- The value computed by `calculate_baseline`'s success branch
(`monitor.py` lines 69-82): the `min(18, n-1)`-indexed boundary of the
`n = min(20, count)` quantile groups of the qualifying loads, falling
back to their arithmetic mean when that computation raises
(`ValueError`/`IndexError`). -/
def baseline_value (now : Rat) (hours : Nat) (b : LoadBaseline) : Rat :=
  let recent := recent_loads now hours b
  let n_quantiles := min 20 recent.length
  let quantile_index := min 18 (n_quantiles - 1)
  match pyQuantilesExclusive recent n_quantiles with
  | none => pyMean recent
  | some qs =>
    match qs.get? quantile_index with
    | none => pyMean recent
    | some q => q

/-- Embeds `LoadMonitor.get_cpu_count` (`monitor.py` lines 228-273), with the
three OS-level reads as explicit inputs: `os.cpu_count()` (`none` =
returned `None`), the `processor` count from `/proc/cpuinfo` (`none` =
`IOError`), and the cpu-line count from `/proc/stat` (`none` =
`IOError`).  The TTL cache only replays a previous result of this same
computation, so it is not modelled. -/
def get_cpu_count (os_cpu_count : Option Nat) (proc_cpuinfo : Option Nat)
    (proc_stat : Option Nat) : Nat :=
  let cpu_count : Option Nat :=
    match os_cpu_count with
    | some c => some c
    | none =>
      match proc_cpuinfo with
      | none => none
      | some k =>
        if k = 0 then
          match proc_stat with
          | none => some 0
          | some s => some s
        else some k
  match cpu_count with
  | none => 1
  | some c => if c = 0 then 1 else c

/-- The OS-visible inputs of one monitor call: `os.getloadavg()`, the
optional `/proc/loadavg` metadata, the CPU-count sources, and the
`time.time()` instant. -/
structure OsEnv where
  loadavg1 : Rat
  loadavg5 : Rat
  loadavg15 : Rat
  proc_meta : Option (Nat × Nat × Nat)
  os_cpu_count : Option Nat
  proc_cpuinfo : Option Nat
  proc_stat : Option Nat
  now : Rat
deriving Repr

/-- Embeds `LoadMonitor.get_load_average` (`monitor.py` lines 169-226): the
three `os.getloadavg()` values, best-effort process metadata defaulting
to zero, and the sample timestamp. -/
def get_load_average (env : OsEnv) : LoadAverage :=
  let meta := env.proc_meta.getD (0, 0, 0)
  { one_minute := env.loadavg1
    five_minute := env.loadavg5
    fifteen_minute := env.loadavg15
    running_processes := meta.1
    total_processes := meta.2.1
    last_pid := meta.2.2
    timestamp := env.now }

/-- Embeds `LoadMonitor.get_normalized_load` (`monitor.py` lines 275-292):
divides the 5-minute load by the CPU count and appends the pair
`(normalized, sample.timestamp)` to the baseline window. -/
def get_normalized_load (env : OsEnv) (b : LoadBaseline) : Rat × LoadBaseline :=
  let load_avg := get_load_average env
  let cpu_count := get_cpu_count env.os_cpu_count env.proc_cpuinfo env.proc_stat
  let normalized := load_avg.average / (cpu_count : Rat)
  (normalized, add_sample b normalized load_avg.timestamp)

/-! ### Persistence embedding (`src/autouam/core/state.py`, lines 25-32
and 78-177) -/

/-- JSON scalar values as produced by `json.dump(state.to_dict(), ...)`. -/
inductive Json where
  | null
  | jbool (b : Bool)
  | jnum (q : Rat)
  | jstr (s : String)
deriving Repr, DecidableEq

/-- The state file's contents as seen by `load_state`: a parseable
top-level JSON object, some other parseable document (the
`isinstance(data, dict)` / `ValueError` path), or bytes that fail JSON
parsing (the `json.JSONDecodeError` path). -/
inductive FileContent where
  | jsonObj (fields : List (String × Json))
  | jsonOther
  | invalid (raw : String)
deriving Repr, DecidableEq

/-- Encode an `Optional[float]` field. -/
def jsonOfOptNum : Option Rat → Json
  | none => Json.null
  | some q => Json.jnum q

/-- Embeds `UAMState.to_dict` (`state.py` lines 25-27): `asdict(self)`, the
seven fields in declaration order. -/
def UAMState.to_dict (s : UAMState) : List (String × Json) :=
  [("is_enabled", Json.jbool s.is_enabled),
   ("last_check", Json.jnum s.last_check),
   ("load_average", Json.jnum s.load_average),
   ("threshold_used", Json.jnum s.threshold_used),
   ("reason", Json.jstr s.reason),
   ("enabled_at", jsonOfOptNum s.enabled_at),
   ("disabled_at", jsonOfOptNum s.disabled_at)]

/-- The dataclass's field names, in order. -/
def uamFieldNames : List String :=
  ["is_enabled", "last_check", "load_average", "threshold_used", "reason",
   "enabled_at", "disabled_at"]

/-- First value stored under key `k` (JSON object key lookup). -/
def lookupKey (d : List (String × Json)) (k : String) : Option Json :=
  (d.find? (fun p => p.1 == k)).map Prod.snd

/-- Decode an `Optional[float]` field with a `None` default: the key may
be absent (dataclass default), JSON `null`, or a number. -/
def decodeOptNum : Option Json → Option (Option Rat)
  | none => some none
  | some Json.null => some none
  | some (Json.jnum q) => some (some q)
  | some _ => none

/-- Embeds `UAMState.from_dict` (`state.py` lines 29-32): `cls(**data)`.  An
unexpected key or a missing required key raises `TypeError`, modelled as
`none`.  The decoder requires each value to carry its field's type; this
covers every document `to_dict` can produce (Python's dataclass would
store an ill-typed value unchecked, but no such document arises from
`save_state`). -/
def from_dict (d : List (String × Json)) : Option UAMState :=
  if d.all (fun p => uamFieldNames.contains p.1) then
    match lookupKey d "is_enabled", lookupKey d "last_check", lookupKey d "load_average",
          lookupKey d "threshold_used", lookupKey d "reason",
          decodeOptNum (lookupKey d "enabled_at"), decodeOptNum (lookupKey d "disabled_at") with
    | some (Json.jbool e), some (Json.jnum lc), some (Json.jnum la), some (Json.jnum tu),
      some (Json.jstr r), some ea, some da =>
        some { is_enabled := e, last_check := lc, load_average := la, threshold_used := tu,
               reason := r, enabled_at := ea, disabled_at := da }
    | _, _, _, _, _, _, _ => none
  else none

/-- The filesystem-and-cache view of a `StateManager`: the in-memory
`self._state`, the state file at `state_file` (`none` = missing), and
the `.corrupted` sibling file. -/
structure StateManager where
  cache : Option UAMState
  file : Option FileContent
  corrupted : Option FileContent
deriving Repr

/-- Embeds `StateManager.load_state` (`state.py` lines 78-131): return the
cached state if set; otherwise read and parse the file.  A
`JSONDecodeError` renames the file to the `.corrupted` sibling and
falls back to the initial state; a non-dict document or a `from_dict`
failure falls back to the initial state without renaming. -/
def load_state (now : Rat) (m : StateManager) : UAMState × StateManager :=
  match m.cache with
  | some s => (s, m)
  | none =>
    match m.file with
    | none =>
      let s := get_initial_state now
      (s, { m with cache := some s })
    | some (FileContent.invalid raw) =>
      let s := get_initial_state now
      (s, { cache := some s, file := none, corrupted := some (FileContent.invalid raw) })
    | some FileContent.jsonOther =>
      let s := get_initial_state now
      (s, { m with cache := some s })
    | some (FileContent.jsonObj d) =>
      match from_dict d with
      | some s => (s, { m with cache := some s })
      | none =>
        let s := get_initial_state now
        (s, { m with cache := some s })

/-- Embeds `StateManager.save_state` (`state.py` lines 133-177), success path:
set the cache and atomically replace the file with the serialized
dictionary (the temporary-file dance has no observable intermediate
state here, matching the atomic-rename contract). -/
def save_state (m : StateManager) (s : UAMState) : StateManager :=
  { m with cache := some s, file := some (FileContent.jsonObj s.to_dict) }

/-! ### Claims -/

/-- C1: for every state with `is_enabled` true and `enabled_at` present
and every minimum duration `d`, `can_disable_uam` returns `false` when
`now - enabled_at < d` and `true` when `now - enabled_at ≥ d`: UAM is
never eligible for automatic disable before the minimum dwell time has
elapsed since `enabled_at`. -/
theorem can_disable_respects_minimum_dwell (s : UAMState) (t now : Rat) (d : Int)
    (he : s.is_enabled = true) (ha : s.enabled_at = some t) :
    (now - t < (d : Rat) → can_disable_uam now s d = false) ∧
    ((d : Rat) ≤ now - t → can_disable_uam now s d = true) := by
  constructor <;> intro h <;>
    simp only [can_disable_uam, get_uam_duration, he, ha, Bool.not_true,
      Bool.false_eq_true, if_false, ge_iff_le, decide_eq_false_iff_not, not_le,
      decide_eq_true_eq]
  · exact h
  · exact h

theorem can_disable_respects_minimum_dwell_witness :
    can_disable_uam 10 ⟨true, 0, 0, 0, "high load", some 0, none⟩ 60 = false ∧
    can_disable_uam 100 ⟨true, 0, 0, 0, "high load", some 0, none⟩ 60 = true :=
  ⟨(can_disable_respects_minimum_dwell _ 0 10 60 rfl rfl).1 (by norm_num),
   (can_disable_respects_minimum_dwell _ 0 100 60 rfl rfl).2 (by norm_num)⟩

/-- C10: whenever `is_enabled` is true but `enabled_at` is absent,
`can_disable_uam` returns `true` for every minimum duration: the
minimum-dwell check is silently skipped because `get_uam_duration`
returns `none`. -/
theorem can_disable_skips_check_without_enabled_at (now : Rat) (s : UAMState) (d : Int)
    (he : s.is_enabled = true) (ha : s.enabled_at = none) :
    can_disable_uam now s d = true := by
  simp [can_disable_uam, get_uam_duration, he, ha]

theorem can_disable_skips_check_without_enabled_at_witness :
    can_disable_uam 0 ⟨true, 0, 9, 1, "legacy file", none, none⟩ 1000000 = true :=
  can_disable_skips_check_without_enabled_at 0 _ 1000000 rfl rfl

/-- C2 counterexample: enabling at time 1 and disabling at time 2 from
the initial state leaves `is_enabled = false` with `enabled_at` still
present (`some 1`): `update_state` never clears `enabled_at` on a
true→false transition, so "`enabled_at` is present iff `is_enabled` is
true" fails on this concrete call sequence. -/
theorem update_state_enabled_at_iff_fails :
    ((run_updates (get_initial_state 0)
        [⟨true, 1, 5, 2, "enable"⟩, ⟨false, 2, 1, 2, "disable"⟩]).is_enabled = false) ∧
    ((run_updates (get_initial_state 0)
        [⟨true, 1, 5, 2, "enable"⟩, ⟨false, 2, 1, 2, "disable"⟩]).enabled_at = some 1) ∧
    ¬ ((run_updates (get_initial_state 0)
        [⟨true, 1, 5, 2, "enable"⟩, ⟨false, 2, 1, 2, "disable"⟩]).enabled_at.isSome = true ↔
       (run_updates (get_initial_state 0)
        [⟨true, 1, 5, 2, "enable"⟩, ⟨false, 2, 1, 2, "disable"⟩]).is_enabled = true) := by
  refine ⟨rfl, rfl, ?_⟩
  intro hiff
  exact absurd (hiff.mp rfl) (by decide)

/-- Step correspondence for C2: one `update_state` call acts on the
triple `(is_enabled, enabled_at present, disabled_at present)` exactly
as one `trace_flags` step. -/
theorem update_state_flags_step (s : UAMState) (c : UpdateCall) :
    ((update_state s c.is_enabled c.now c.load_average c.threshold_used c.reason).is_enabled,
     (update_state s c.is_enabled c.now c.load_average c.threshold_used c.reason).enabled_at.isSome,
     (update_state s c.is_enabled c.now c.load_average c.threshold_used c.reason).disabled_at.isSome) =
    (if c.is_enabled && !s.is_enabled then (true, true, false)
     else if !c.is_enabled && s.is_enabled then (false, s.enabled_at.isSome, true)
     else (s.is_enabled, s.enabled_at.isSome, s.disabled_at.isSome)) := by
  cases hc : c.is_enabled <;> cases hs : s.is_enabled <;>
    simp [update_state, hc, hs]

/-- Fold correspondence for C2, generalized over the start state. -/
theorem run_updates_flags (calls : List UpdateCall) :
    ∀ s : UAMState,
      ((run_updates s calls).is_enabled,
       (run_updates s calls).enabled_at.isSome,
       (run_updates s calls).disabled_at.isSome) =
      trace_flags (s.is_enabled, s.enabled_at.isSome, s.disabled_at.isSome) calls := by
  induction calls with
  | nil => intro s; rfl
  | cons c rest ih =>
    intro s
    have hstep := update_state_flags_step s c
    have h := ih (update_state s c.is_enabled c.now c.load_average c.threshold_used c.reason)
    rw [show run_updates s (c :: rest) =
        run_updates (update_state s c.is_enabled c.now c.load_average c.threshold_used c.reason)
          rest from rfl,
      show trace_flags (s.is_enabled, s.enabled_at.isSome, s.disabled_at.isSome) (c :: rest) =
        trace_flags
          (if c.is_enabled && !s.is_enabled then (true, true, false)
           else if !c.is_enabled && s.is_enabled then (false, s.enabled_at.isSome, true)
           else (s.is_enabled, s.enabled_at.isSome, s.disabled_at.isSome)) rest from rfl,
      h, hstep]

/-- C2 amended: for every sequence of `update_state` calls from the
initial state, `enabled_at` is present iff at least one false→true
(enable) transition has occurred — it is set on every enable transition
and never cleared afterwards — and `disabled_at` is present iff the most
recent transition was enable→disable and no enable occurred since
(`trace_flags` tracks exactly these two history predicates alongside
the current flag). -/
theorem update_state_timestamp_invariant (t0 : Rat) (calls : List UpdateCall) :
    (run_updates (get_initial_state t0) calls).is_enabled =
      (trace_flags (false, false, false) calls).1 ∧
    (run_updates (get_initial_state t0) calls).enabled_at.isSome =
      (trace_flags (false, false, false) calls).2.1 ∧
    (run_updates (get_initial_state t0) calls).disabled_at.isSome =
      (trace_flags (false, false, false) calls).2.2 := by
  have h := run_updates_flags calls (get_initial_state t0)
  exact ⟨congrArg Prod.fst h, congrArg (fun x => x.2.1) h, congrArg (fun x => x.2.2) h⟩

/-- Case analysis of `calculate_baseline`: with fewer than two
qualifying loads it is a no-op returning `none`; otherwise it returns
`baseline_value` and records it together with the update time. -/
theorem calculate_baseline_dichotomy (now : Rat) (hours : Nat) (b : LoadBaseline) :
    ((recent_loads now hours b).length < 2 ∧ calculate_baseline now hours b = (none, b)) ∨
    (2 ≤ (recent_loads now hours b).length ∧
      calculate_baseline now hours b =
        (some (baseline_value now hours b),
          { b with baseline := some (baseline_value now hours b), last_update := now })) := by
  by_cases h0 : b.samples.isEmpty
  · left
    have hnil : b.samples = [] := List.isEmpty_iff.mp h0
    refine ⟨by simp [recent_loads, hnil], by simp [calculate_baseline, h0]⟩
  · by_cases h1 : (recent_loads now hours b).isEmpty
    · left
      refine ⟨by rw [List.isEmpty_iff.mp h1]; simp, ?_⟩
      simp only [calculate_baseline, h0, Bool.false_eq_true, if_false]
      rw [show ((b.samples.filter
          (fun p => p.2 ≥ now - ((hours * 3600 : Nat) : Rat))).map Prod.fst) =
        recent_loads now hours b from rfl, List.isEmpty_iff.mp h1]
      simp
    · by_cases h2 : (recent_loads now hours b).length < 2
      · left
        refine ⟨h2, ?_⟩
        simp only [calculate_baseline, h0, Bool.false_eq_true, if_false]
        rw [show ((b.samples.filter
            (fun p => p.2 ≥ now - ((hours * 3600 : Nat) : Rat))).map Prod.fst) =
          recent_loads now hours b from rfl]
        simp [h1, h2]
      · right
        refine ⟨by omega, ?_⟩
        simp only [calculate_baseline, h0, Bool.false_eq_true, if_false]
        rw [show ((b.samples.filter
            (fun p => p.2 ≥ now - ((hours * 3600 : Nat) : Rat))).map Prod.fst) =
          recent_loads now hours b from rfl]
        simp [h1, h2, baseline_value]

/-- C3: with at least 2 qualifying samples in the trailing window,
`calculate_baseline` returns the `min(18, n-1)`-indexed boundary of the
`n = min(20, count)` quantile groups of the qualifying loads, and the
arithmetic mean instead whenever that quantile computation is not
well-defined (raises) — the content of `baseline_value`. -/
theorem calculate_baseline_quantile_spec (now : Rat) (hours : Nat) (b : LoadBaseline)
    (h2 : 2 ≤ (recent_loads now hours b).length) :
    (calculate_baseline now hours b).1 = some (baseline_value now hours b) := by
  rcases calculate_baseline_dichotomy now hours b with ⟨hlt, _⟩ | ⟨_, heq⟩
  · omega
  · rw [heq]

theorem calculate_baseline_quantile_spec_witness :
    (calculate_baseline 100 24 ⟨1440, [(1, 50), (3, 60)], 0, none⟩).1 = some 2 ∧
    (calculate_baseline 100 24
        ⟨1440, (List.range 20).map (fun i => ((i + 1 : Rat), 50)), 0, none⟩).1 =
      some (399 / 20) :=
  ⟨(calculate_baseline_quantile_spec 100 24 _ (by decide)).trans (by decide),
   (calculate_baseline_quantile_spec 100 24 _ (by decide)).trans (by decide)⟩

/-- C8: with fewer than 2 qualifying samples `calculate_baseline`
returns `none` and leaves the whole `LoadBaseline` — in particular the
stored baseline and `last_update` — unchanged; `last_update` changes
only on a successful recomputation, and then to the current time. -/
theorem calculate_baseline_frame (now : Rat) (hours : Nat) (b : LoadBaseline) :
    ((recent_loads now hours b).length < 2 → calculate_baseline now hours b = (none, b)) ∧
    ((calculate_baseline now hours b).2.last_update ≠ b.last_update →
      (calculate_baseline now hours b).1.isSome = true ∧
      (calculate_baseline now hours b).2.last_update = now) := by
  rcases calculate_baseline_dichotomy now hours b with ⟨hlt, heq⟩ | ⟨hge, heq⟩
  · refine ⟨fun _ => heq, fun hne => absurd ?_ hne⟩
    rw [heq]
  · refine ⟨fun h => by omega, fun _ => ?_⟩
    rw [heq]
    exact ⟨rfl, rfl⟩

theorem calculate_baseline_frame_witness :
    calculate_baseline 100 24 ⟨1440, [(1, 50)], 7, some 5⟩ =
      (none, ⟨1440, [(1, 50)], 7, some 5⟩) ∧
    ((calculate_baseline 100 24 ⟨1440, [(1, 50), (3, 60)], 7, some 5⟩).1.isSome = true ∧
      (calculate_baseline 100 24 ⟨1440, [(1, 50), (3, 60)], 7, some 5⟩).2.last_update = 100) :=
  ⟨(calculate_baseline_frame 100 24 ⟨1440, [(1, 50)], 7, some 5⟩).1 (by decide),
   (calculate_baseline_frame 100 24 ⟨1440, [(1, 50), (3, 60)], 7, some 5⟩).2 (by decide)⟩

/-- Decoding the encoded dictionary recovers every `UAMState`. -/
theorem from_dict_to_dict (s : UAMState) : from_dict s.to_dict = some s := by
  rcases s with ⟨e, lc, la, tu, r, ea, da⟩
  cases ea <;> cases da <;> rfl

/-- C4: `save_state s` followed by `load_state` yields `s` exactly —
both through the in-memory cache and, after the cache is dropped
(a restart), through parsing the persisted file, so all seven fields
round-trip. -/
theorem save_load_roundtrip (m : StateManager) (s : UAMState) (now : Rat) :
    (load_state now (save_state m s)).1 = s ∧
    (load_state now { save_state m s with cache := none }).1 = s := by
  refine ⟨rfl, ?_⟩
  show (load_state now
    ⟨none, some (FileContent.jsonObj s.to_dict), m.corrupted⟩).1 = s
  simp [load_state, from_dict_to_dict]

/-- C5: a state file whose contents fail JSON parsing never raises:
`load_state` renames the corrupt file aside to the `.corrupted` sibling
and returns a fresh initial state (`is_enabled` false, `enabled_at` and
`disabled_at` absent). -/
theorem load_state_corrupt_recovery (raw : String) (c : Option FileContent) (now : Rat) :
    load_state now ⟨none, some (FileContent.invalid raw), c⟩ =
      (get_initial_state now,
        ⟨some (get_initial_state now), none, some (FileContent.invalid raw)⟩) ∧
    (get_initial_state now).is_enabled = false ∧
    (get_initial_state now).enabled_at = none ∧
    (get_initial_state now).disabled_at = none :=
  ⟨rfl, rfl, rfl, rfl⟩

/-- C6: whatever the OS-level CPU queries return — `os.cpu_count()`
absent, every fallback absent or zero — `get_cpu_count` is at least 1
and never 0, so dividing by it (as `get_normalized_load` does) is never
a division by zero. -/
theorem get_cpu_count_pos (o c s : Option Nat) :
    1 ≤ get_cpu_count o c s ∧ ((get_cpu_count o c s : Nat) : Rat) ≠ 0 := by
  have h1 : 1 ≤ get_cpu_count o c s := by
    rcases o with _ | c0
    · rcases c with _ | k
      · simp [get_cpu_count]
      · rcases s with _ | s0 <;> by_cases hk : k = 0 <;>
          simp only [get_cpu_count, hk, if_true, if_false, reduceIte] <;>
          first
          | omega
          | (split_ifs <;> omega)
    · by_cases hc0 : c0 = 0 <;> simp [get_cpu_count, hc0] <;> omega
  exact ⟨h1, by exact_mod_cast Nat.one_le_iff_ne_zero.mp h1⟩

/-- C7: `get_normalized_load` returns the sampled 5-minute load average
divided by the CPU count, and its only effect on the baseline estimator
is appending exactly the pair `(normalized, sample.timestamp)` to the
window (everything else — capacity, stored baseline, `last_update` — is
untouched). -/
theorem get_normalized_load_spec (env : OsEnv) (b : LoadBaseline) :
    (get_normalized_load env b).1 =
      (get_load_average env).five_minute /
        ((get_cpu_count env.os_cpu_count env.proc_cpuinfo env.proc_stat : Nat) : Rat) ∧
    (get_normalized_load env b).2 =
      add_sample b (get_normalized_load env b).1 (get_load_average env).timestamp ∧
    (get_normalized_load env b).2.samples =
      (b.samples ++ [((get_normalized_load env b).1, env.now)]).drop
        (b.samples.length + 1 - b.max_samples) ∧
    (get_normalized_load env b).2.max_samples = b.max_samples ∧
    (get_normalized_load env b).2.baseline = b.baseline ∧
    (get_normalized_load env b).2.last_update = b.last_update :=
  ⟨rfl, rfl, rfl, rfl, rfl, rfl⟩

/-- A single `add_sample`: append on the right, dropping the head
exactly when the window was full. -/
theorem add_sample_samples (b : LoadBaseline) (x ts : Rat) :
    (add_sample b x ts).samples =
      (b.samples ++ [(x, ts)]).drop (b.samples.length + 1 - b.max_samples) := rfl

/-- Folding `add_sample` over a sample sequence, generalized over any
start window no longer than its capacity. -/
theorem foldl_add_sample_samples (cap : Nat) (xs : List (Rat × Rat)) :
    ∀ b : LoadBaseline, b.max_samples = cap → b.samples.length ≤ cap →
      (xs.foldl (fun acc p => add_sample acc p.1 p.2) b).samples =
        (b.samples ++ xs).drop (b.samples.length + xs.length - cap) := by
  induction xs with
  | nil =>
    intro b hc hl
    simp [Nat.sub_eq_zero_of_le hl]
  | cons x rest ih =>
    rcases x with ⟨xl, xt⟩
    intro b hc hl
    have hb' : (add_sample b xl xt).max_samples = cap := hc
    have hlen : (add_sample b xl xt).samples.length =
        b.samples.length + 1 - (b.samples.length + 1 - cap) := by
      simp [add_sample_samples, List.length_drop, hc]
    have hl' : (add_sample b xl xt).samples.length ≤ cap := by
      rw [hlen]; omega
    have hfold : (((xl, xt) :: rest).foldl (fun acc p => add_sample acc p.1 p.2) b) =
        rest.foldl (fun acc p => add_sample acc p.1 p.2) (add_sample b xl xt) := rfl
    rw [hfold, ih (add_sample b xl xt) hb' hl', hlen, add_sample_samples, hc]
    have hk : b.samples.length + 1 - cap ≤ (b.samples ++ [(xl, xt)]).length := by
      simp
    rw [← List.drop_append_of_le_length hk, List.drop_drop]
    have harr : (b.samples ++ [(xl, xt)]) ++ rest = b.samples ++ (xl, xt) :: rest := by
      simp
    rw [harr]
    congr 1
    simp only [List.length_cons]
    omega

/-- C9: starting from a fresh window of capacity `cap` (default 1440),
after any sequence of `add_sample` calls the window holds exactly the
last `min cap n` samples in insertion order: it never exceeds its
capacity, and each append to a full window evicts exactly the oldest
sample (FIFO). -/
theorem baseline_window_bounded_fifo (cap : Nat) (xs : List (Rat × Rat)) :
    (xs.foldl (fun acc p => add_sample acc p.1 p.2) (LoadBaseline.init cap)).samples =
      xs.drop (xs.length - cap) ∧
    (xs.foldl (fun acc p => add_sample acc p.1 p.2) (LoadBaseline.init cap)).samples.length
      ≤ cap := by
  have h := foldl_add_sample_samples cap xs (LoadBaseline.init cap) rfl (by simp [LoadBaseline.init])
  have hs : (LoadBaseline.init cap).samples = [] := rfl
  rw [hs] at h
  simp only [List.nil_append, List.length_nil, Nat.zero_add] at h
  refine ⟨h, ?_⟩
  rw [h, List.length_drop]
  omega

end AutoUAM
